import Mathlib

/-!
Verification development for the `dir_compress_util` archive pipeline.

The Rust sources are shallowly embedded:

* `src/utilities.rs`  : `num_files`, `entries` (WalkDir traversal + filter);
* `src/progress.rs`   : `CompressionProgress.increment_total_progress`,
  the ETA renderer body (`update_eta`) and `format_eta`;
* `src/processing.rs` : `process_tar_file`, `process_tar_directory`,
  `process_tar_entries` (producer/consumer loop);
* `src/encode.rs`     : `process_file` (the parallel variant, including its
  long-path fallback) and the `encode_tar_bz` finish sequence.

The filesystem is modelled as a tree.  A file's stat-reported size
(`metaSize`) and the bytes actually read (`contents`) are kept as separate
fields because the code obtains them by two separate filesystem queries
(`path.metadata()` then `File::open` + `io::copy`); a consistent snapshot
has `contents.length = metaSize`.  Wall-clock instants and durations are
naturals counting nanoseconds, as in `std::time::Instant` / `Duration`;
the elapsed-time subtraction saturates at zero exactly like
`Instant::duration_since` (truncated `Nat` subtraction).  The f64 values
produced by `as_secs_f64` and the smoothing arithmetic are modelled by
exact rational arithmetic.  Terminal rendering is dropped; the mutations
the renderer observes (counter, position, message string) are kept.
-/

namespace DirCompress

/-- One regular file as the code observes it: stat data (`metaSize`,
`mode`, `mtime`), the bytes obtained by reading it (`contents`), and
whether `File::open` succeeds (`readable`). -/
structure FileData where
  name : String
  metaSize : Nat
  contents : List Nat
  readable : Bool
  mode : Nat
  mtime : Nat
deriving DecidableEq

/-- A filesystem node: a regular file or a directory with children. -/
inductive FSNode where
  | file (data : FileData)
  | dir (name : String) (children : List FSNode)

def nodeName : FSNode → String
  | FSNode.file d => d.name
  | FSNode.dir n _ => n

mutual

/-- `WalkDir::new(src)`: depth-first walk, yielding the root itself first
(with relative path `[]`, i.e. what `strip_prefix(src)` produces for the
root) and each directory before its contents. -/
def walkNode : FSNode → List (List String × FSNode)
  | FSNode.file d => [([], FSNode.file d)]
  | FSNode.dir n cs => ([], FSNode.dir n cs) :: walkChildren cs

def walkChildren : List FSNode → List (List String × FSNode)
  | [] => []
  | c :: rest =>
      (walkNode c).map (fun pe => (nodeName c :: pe.1, pe.2)) ++ walkChildren rest

end

/-- The filter shared by `num_files` and `entries` in `src/utilities.rs`:
`entry.path().is_file() || (entry.path().is_dir() && read_dir has a first
element)`.  It keeps files and non-empty directories and drops empty
directories. -/
def isEligible : FSNode → Bool
  | FSNode.file _ => true
  | FSNode.dir _ cs => !cs.isEmpty

/-- `utilities::num_files`: walk the source and count the entries kept by
the filter. -/
def num_files (src : FSNode) : Nat :=
  ((walkNode src).filter (fun pe => isEligible pe.2)).length

/-- `utilities::entries`: the same walk and filter, collected. -/
def entries (src : FSNode) : List (List String × FSNode) :=
  (walkNode src).filter (fun pe => isEligible pe.2)

/-- The shared progress state of `progress::CompressionProgress`: the
`file_counter`, the main bar's position, the fixed total, the
`last_update_time` instant (nanoseconds) and the smoothed per-file
seconds (the f64, modelled as a rational). -/
structure ProgressState where
  fileCounter : Nat
  position : Nat
  totalFiles : Nat
  lastUpdateTime : Nat
  smoothedEtaPerFile : Option ℚ

/-- One nanosecond count below `Duration::from_millis(10)`. -/
def tenMillisNanos : Nat := 10000000

/-- Nanoseconds in `Duration::from_secs(30)`. -/
def thirtySecsNanos : Nat := 30000000000

/-- `Duration::as_secs_f64` on a nanosecond count. -/
def asSecsF64 (nanos : Nat) : ℚ := (nanos : ℚ) / 1000000000

/-- `CompressionProgress::increment_total_progress`, with the current
instant passed explicitly.  The counter always advances by one and
`last_update_time` is overwritten; an elapsed time below 10 ms or above
30 s only moves the bar position, otherwise the exponential moving
average (factor `0.2` new, `1.0 - 0.2` old) of the elapsed seconds is
updated, seeding it with the raw sample when empty. -/
def increment_total_progress (ps : ProgressState) (now : Nat) : ProgressState :=
  let counter := ps.fileCounter + 1
  let durNanos := now - ps.lastUpdateTime
  if durNanos < tenMillisNanos ∨ thirtySecsNanos < durNanos then
    { ps with fileCounter := counter, lastUpdateTime := now, position := counter }
  else
    let latestSecs : ℚ := asSecsF64 durNanos
    let smoothed : ℚ :=
      match ps.smoothedEtaPerFile with
      | some prev => 0.2 * latestSecs + (1 - 0.2) * prev
      | none => latestSecs
    { ps with fileCounter := counter, lastUpdateTime := now,
              smoothedEtaPerFile := some smoothed, position := counter }

/-- `f64::clamp(lo, hi)` as used on the smoothed average. -/
def rclamp (x lo hi : ℚ) : ℚ :=
  if x < lo then lo else if hi < x then hi else x

/-- The `eta_secs as u64` cast: truncation toward zero, zero for
non-positive values. -/
def f64ToU64Trunc (q : ℚ) : Nat :=
  if q ≤ 0 then 0 else q.num.toNat / q.den

/-- Zero-padded two-digit rendering, Rust's `{:02}`. -/
def pad2 (n : Nat) : String :=
  if n < 10 then "0" ++ Nat.repr n else Nat.repr n

/-- `progress::format_eta` on whole seconds. -/
def format_eta (secs : Nat) : String :=
  let hours := secs / 3600
  let minutes := (secs % 3600) / 60
  let seconds := secs % 60
  if 0 < hours then
    "ETA: " ++ pad2 hours ++ ":" ++ pad2 minutes ++ ":" ++ pad2 seconds ++ " hours"
  else if 0 < minutes then
    "ETA: " ++ pad2 minutes ++ ":" ++ pad2 seconds ++ " minutes"
  else
    "ETA: " ++ pad2 seconds ++ " seconds"

/-- The body of the `update_eta` renderer loop: the message written to the
total bar from a snapshot of the shared state.  Below `min(10, total)`
completions, or with no smoothed sample yet, it is the calculating
message; otherwise the clamped average times the saturating remaining
count, truncated to whole seconds and formatted. -/
def update_eta_message (ps : ProgressState) : String :=
  if ps.fileCounter < min 10 ps.totalFiles ∨ ps.smoothedEtaPerFile = none then
    "ETA: Calculating..."
  else
    format_eta (f64ToU64Trunc (rclamp ((ps.smoothedEtaPerFile).getD 0) 0.005 60
        * ((ps.totalFiles - ps.fileCounter : Nat) : ℚ)))

/-- A tar header as `process_tar_file` builds it: size from `metadata.len()`,
mode, mtime, and the path, which stays at the GNU default (`none`) when
`set_path` fails. -/
structure TarHeader where
  size : Nat
  mode : Nat
  mtime : Nat
  path : Option (List String)
deriving DecidableEq

/-- An entry appended through the archive writer: `Builder::append` of a
header and a buffer, or `Builder::append_dir` of a relative path. -/
inductive TarEntry where
  | fileEntry (header : TarHeader) (data : List Nat)
  | dirEntry (path : List String)
deriving DecidableEq

/-- Gateway events, for the finish-ordering property: an append call on
the tar builder, `tar::Builder::finish`, and the encoder's `finish`. -/
inductive GEvent where
  | append
  | tarFinish
  | encFinish
deriving DecidableEq

/-- The shared mutable state of one pipeline run: the progress tracker,
the `working_status` string, the archive as the ordered list of appended
entries, the stderr log, and the gateway event trace. -/
structure RunState where
  progress : ProgressState
  workingStatus : String
  archive : List TarEntry
  errLog : List String
  events : List GEvent

def initProgress (totalFiles : Nat) (t0 : Nat) : ProgressState :=
  { fileCounter := 0, position := 0, totalFiles := totalFiles,
    lastUpdateTime := t0, smoothedEtaPerFile := none }

/-- The state right after `setup_progress`: counter zero, empty status,
nothing appended, nothing logged. -/
def initRunState (totalFiles : Nat) (t0 : Nat) : RunState :=
  { progress := initProgress totalFiles t0, workingStatus := "",
    archive := [], errLog := [], events := [] }

def pathString (p : List String) : String := String.intercalate "/" p

/-- `processing::process_tar_file`.  `fits` abstracts whether
`tar::Header::set_path` accepts the relative path (the container format's
length limit).  In source order: stat (always succeeds here), working
status set to the file name, open (the failure point for unreadable
files), read into a buffer, header built with the stat size, `set_path`
with an error line on failure, append, progress increment, status
cleared.  The returned `Option String` is the `Result` seen by the
caller; state mutations made before a failure persist. -/
def process_tar_file (fits : List String → Bool) (d : FileData)
    (relPath : List String) (now : Nat) (st : RunState) :
    Option String × RunState :=
  let displayName := pathString relPath
  let st1 : RunState := { st with workingStatus := displayName }
  if d.readable then
    let st2 : RunState :=
      if fits relPath then st1
      else { st1 with errLog := st1.errLog ++ ["Error setting path for " ++ displayName] }
    let header : TarHeader :=
      { size := d.metaSize, mode := d.mode, mtime := d.mtime,
        path := if fits relPath then some relPath else none }
    let st3 : RunState :=
      { st2 with archive := st2.archive ++ [TarEntry.fileEntry header d.contents],
                 events := st2.events ++ [GEvent.append] }
    let st4 : RunState := { st3 with progress := increment_total_progress st3.progress now }
    (none, { st4 with workingStatus := "" })
  else
    (some "Permission denied (os error 13)", st1)

/-- `processing::process_tar_directory`: working status set, the
directory marker appended, and a progress increment only when
`read_dir` yields nothing (the directory is empty). -/
def process_tar_directory (children : List FSNode) (relPath : List String)
    (now : Nat) (st : RunState) : Option String × RunState :=
  let st1 : RunState :=
    { st with workingStatus := "Processing directory: " ++ pathString relPath }
  let st2 : RunState :=
    { st1 with archive := st1.archive ++ [TarEntry.dirEntry relPath],
               events := st1.events ++ [GEvent.append] }
  if children.isEmpty then
    (none, { st2 with progress := increment_total_progress st2.progress now })
  else
    (none, st2)

/-- The per-entry dispatch in the consumer loop of
`process_tar_entries`: files to `process_tar_file`, directories to
`process_tar_directory`, anything else ignored. -/
def processEntry (fits : List String → Bool) (pe : List String × FSNode)
    (now : Nat) (st : RunState) : Option String × RunState :=
  match pe.2 with
  | FSNode.file d => process_tar_file fits d pe.1 now st
  | FSNode.dir _ cs => process_tar_directory cs pe.1 now st

/-- `if let Err(e) = result { eprintln!("Error processing file: {}", e) }`:
a per-entry `Err` is written to stderr and otherwise dropped. -/
def stepWrap : Option String × RunState → RunState
  | (some e, st) => { st with errLog := st.errLog ++ ["Error processing file: " ++ e] }
  | (none, st) => st

/-- The consumer loop of `process_tar_entries`: each received entry is
processed with the instant `times i`, a per-entry `Err` is logged, and
the loop continues with the next entry. -/
def runEntries (fits : List String → Bool) (times : Nat → Nat) :
    List (List String × FSNode) → Nat → RunState → RunState
  | [], _, st => st
  | pe :: rest, i, st =>
      runEntries fits times rest (i + 1) (stepWrap (processEntry fits pe (times i) st))

/-- The final state of one full `process_tar_entries` run over
`entries src`, started from the freshly set-up progress state with total
`num_files src`. -/
def pipelineFinal (fits : List String → Bool) (times : Nat → Nat) (t0 : Nat)
    (src : FSNode) : RunState :=
  runEntries fits times (entries src) 0 (initRunState (num_files src) t0)

/-- `processing::process_tar_entries`: the producer sends every element
of `entries src` in order, the consumer loop above drains them, and the
function returns `Ok` with the builder unconditionally. -/
def process_tar_entries (fits : List String → Bool) (times : Nat → Nat)
    (t0 : Nat) (src : FSNode) : Except String RunState :=
  Except.ok (pipelineFinal fits times t0 src)

/-- `main`: a returned error prints and exits with status 1, otherwise the
process exits 0. -/
def mainExitCode (r : Except String RunState) : Nat :=
  match r with
  | Except.ok _ => 0
  | Except.error _ => 1

/-- The `encode_tar_bz` orchestration after the workers are done: the
event trace of the run followed by `tar_file.finish()` and
`encoder.finish()`. -/
def encode_run (fits : List String → Bool) (times : Nat → Nat) (t0 : Nat)
    (src : FSNode) : RunState :=
  let st := pipelineFinal fits times t0 src
  { st with events := st.events ++ [GEvent.tarFinish, GEvent.encFinish] }

/-- `Path::strip_prefix` on component lists. -/
def dropPre (pre p : List String) : Option (List String) :=
  if pre.isPrefixOf p then some (p.drop pre.length) else none

/-- Outcome of `encode::process_file`: `Ok`, an `Err` the caller logs, or
a panic that unwinds out of the rayon worker. -/
inductive EncOutcome where
  | ok (st : RunState)
  | ioErr (msg : String) (st : RunState)
  | panicked (msg : String)

def isPanicked : EncOutcome → Bool
  | EncOutcome.panicked _ => true
  | _ => false

/-- `encode::process_file` (the rayon variant).  Identical to
`process_tar_file` up to `set_path`; on a `set_path` failure it computes
`rel_path.strip_prefix(&path).unwrap()` where `path` is the absolute
path `srcPath ++ relPath`, so unless `srcPath` is empty the `unwrap`
panics before the warning is printed. -/
def encode_process_file (fits : List String → Bool) (srcPath : List String)
    (d : FileData) (relPath : List String) (now : Nat) (st : RunState) :
    EncOutcome :=
  let displayName := pathString relPath
  let st1 : RunState := { st with workingStatus := displayName }
  if d.readable then
    if fits relPath then
      let header : TarHeader :=
        { size := d.metaSize, mode := d.mode, mtime := d.mtime, path := some relPath }
      let st2 : RunState :=
        { st1 with archive := st1.archive ++ [TarEntry.fileEntry header d.contents],
                   events := st1.events ++ [GEvent.append] }
      let st3 : RunState := { st2 with progress := increment_total_progress st2.progress now }
      EncOutcome.ok { st3 with workingStatus := "" }
    else
      match dropPre (srcPath ++ relPath) relPath with
      | some strippedPath =>
          let st2 : RunState :=
            { st1 with errLog := st1.errLog ++
                ["Warning: Failed to set long path for file " ++ pathString strippedPath] }
          let header : TarHeader :=
            { size := d.metaSize, mode := d.mode, mtime := d.mtime, path := none }
          let st3 : RunState :=
            { st2 with archive := st2.archive ++ [TarEntry.fileEntry header d.contents],
                       events := st2.events ++ [GEvent.append] }
          let st4 : RunState := { st3 with progress := increment_total_progress st3.progress now }
          EncOutcome.ok { st4 with workingStatus := "" }
      | none =>
          EncOutcome.panicked "called Result::unwrap() on an Err value: StripPrefixError"
  else
    EncOutcome.ioErr "Permission denied (os error 13)" st1

/-- The in-archive name of an appended entry (default empty path when
`set_path` failed). -/
def entryPath : TarEntry → List String
  | TarEntry.fileEntry h _ => h.path.getD []
  | TarEntry.dirEntry p => p

def archivePaths (st : RunState) : List (List String) := st.archive.map entryPath

/-- An enumerated entry that is a file the run fails to open. -/
def entryIsUnreadableFile : List String × FSNode → Bool
  | (_, FSNode.file d) => !d.readable
  | (_, FSNode.dir _ _) => false

/-- An enumerated entry that is a file the run opens successfully. -/
def entryIsReadableFile : List String × FSNode → Bool
  | (_, FSNode.file d) => d.readable
  | (_, FSNode.dir _ _) => false

/-! ### Concrete inputs used by the closed evaluations below -/

/-- A source root holding one readable 3-byte file. -/
def treeOneFile : FSNode :=
  FSNode.dir "src"
    [FSNode.file { name := "a.txt", metaSize := 3, contents := [1, 2, 3],
                   readable := true, mode := 420, mtime := 0 }]

/-- A source root holding exactly one empty directory `c/`. -/
def treeOneEmptyDir : FSNode := FSNode.dir "src" [FSNode.dir "c" []]

/-- The spec's concrete scenario: `a.txt` (10 bytes), `b/b.txt` (5 bytes)
and the empty directory `c/`. -/
def treeScenario : FSNode :=
  FSNode.dir "src"
    [ FSNode.file { name := "a.txt", metaSize := 10,
                    contents := [0, 1, 2, 3, 4, 5, 6, 7, 8, 9],
                    readable := true, mode := 420, mtime := 0 },
      FSNode.dir "b"
        [FSNode.file { name := "b.txt", metaSize := 5, contents := [0, 1, 2, 3, 4],
                       readable := true, mode := 420, mtime := 0 }],
      FSNode.dir "c" [] ]

/-- A source root holding an unreadable file followed by a readable one. -/
def treeMixed : FSNode :=
  FSNode.dir "src"
    [ FSNode.file { name := "locked.txt", metaSize := 2, contents := [7, 7],
                    readable := false, mode := 384, mtime := 0 },
      FSNode.file { name := "open.txt", metaSize := 1, contents := [9],
                    readable := true, mode := 420, mtime := 0 } ]

/-- A file whose stat size (10) disagrees with the bytes actually read
(5): the state of a file that changed between `metadata()` and the read. -/
def fileMismatch : FileData :=
  { name := "x.txt", metaSize := 10, contents := [1, 2, 3, 4, 5],
    readable := true, mode := 420, mtime := 0 }

/-- A consistent file: stat size equals the read length. -/
def fileConsistent : FileData :=
  { name := "a", metaSize := 3, contents := [1, 2, 3],
    readable := true, mode := 420, mtime := 0 }

/-- A readable file standing for one whose relative path the container
header rejects. -/
def fileLongName : FileData :=
  { name := "longname.txt", metaSize := 4, contents := [1, 2, 3, 4],
    readable := true, mode := 420, mtime := 0 }

/-- The progress counter after the first `k` enumerated entries of a run
have been consumed. -/
def counterAfter (fits : List String → Bool) (times : Nat → Nat) (t0 : Nat)
    (src : FSNode) (k : Nat) : Nat :=
  (runEntries fits times ((entries src).take k) 0
    (initRunState (num_files src) t0)).progress.fileCounter

/-- A mid-run progress state with an existing smoothed average of 2 s. -/
def psSample : ProgressState :=
  { fileCounter := 5, position := 5, totalFiles := 10, lastUpdateTime := 0,
    smoothedEtaPerFile := some 2 }

/-- A fresh progress state: nothing completed, no smoothed sample. -/
def psCalc : ProgressState :=
  { fileCounter := 0, position := 0, totalFiles := 5, lastUpdateTime := 0,
    smoothedEtaPerFile := none }

/-- A progress state past the warm-up threshold with a 2 s average. -/
def psEta : ProgressState :=
  { fileCounter := 10, position := 10, totalFiles := 20, lastUpdateTime := 0,
    smoothedEtaPerFile := some 2 }

/-! ### Characterization lemmas for the per-entry processors -/

theorem num_files_eq_entries_length (src : FSNode) :
    num_files src = (entries src).length := rfl

theorem mem_entries_eligible (src : FSNode) (pe : List String × FSNode)
    (hpe : pe ∈ entries src) : isEligible pe.2 = true := by
  unfold entries at hpe
  exact (List.mem_filter.mp hpe).2

theorem increment_fileCounter (ps : ProgressState) (now : Nat) :
    (increment_total_progress ps now).fileCounter = ps.fileCounter + 1 := by
  unfold increment_total_progress
  dsimp only
  split <;> rfl

theorem process_tar_file_readable (fits : List String → Bool) (d : FileData)
    (relPath : List String) (now : Nat) (st : RunState) (hd : d.readable = true) :
    process_tar_file fits d relPath now st =
      (none,
        { progress := increment_total_progress st.progress now,
          workingStatus := "",
          archive := st.archive ++ [TarEntry.fileEntry
            { size := d.metaSize, mode := d.mode, mtime := d.mtime,
              path := if fits relPath then some relPath else none } d.contents],
          errLog := st.errLog ++ (if fits relPath then [] else
            ["Error setting path for " ++ pathString relPath]),
          events := st.events ++ [GEvent.append] }) := by
  unfold process_tar_file
  rw [hd]
  by_cases hf : fits relPath <;> simp [hf]

theorem process_tar_file_unreadable (fits : List String → Bool) (d : FileData)
    (relPath : List String) (now : Nat) (st : RunState) (hd : d.readable = false) :
    process_tar_file fits d relPath now st =
      (some "Permission denied (os error 13)",
        { st with workingStatus := pathString relPath }) := by
  unfold process_tar_file
  rw [hd]
  simp

theorem process_tar_directory_eq (children : List FSNode) (relPath : List String)
    (now : Nat) (st : RunState) :
    process_tar_directory children relPath now st =
      (none,
        { progress := if children.isEmpty then
            increment_total_progress st.progress now else st.progress,
          workingStatus := "Processing directory: " ++ pathString relPath,
          archive := st.archive ++ [TarEntry.dirEntry relPath],
          errLog := st.errLog,
          events := st.events ++ [GEvent.append] }) := by
  unfold process_tar_directory
  by_cases he : children.isEmpty <;> simp [he]

theorem stepWrap_progress (r : Option String × RunState) :
    (stepWrap r).progress = r.2.progress := by
  obtain ⟨o, stx⟩ := r
  cases o <;> rfl

theorem stepWrap_events (r : Option String × RunState) :
    (stepWrap r).events = r.2.events := by
  obtain ⟨o, stx⟩ := r
  cases o <;> rfl

/-! ### Invariants of the consumer loop -/

theorem processEntry_counter_ge (fits : List String → Bool)
    (pe : List String × FSNode) (now : Nat) (st : RunState) :
    st.progress.fileCounter ≤ (processEntry fits pe now st).2.progress.fileCounter := by
  obtain ⟨p, n⟩ := pe
  cases n with
  | file d =>
    cases hd : d.readable
    · rw [show processEntry fits (p, FSNode.file d) now st
          = process_tar_file fits d p now st from rfl,
        process_tar_file_unreadable fits d p now st hd]
    · rw [show processEntry fits (p, FSNode.file d) now st
          = process_tar_file fits d p now st from rfl,
        process_tar_file_readable fits d p now st hd]
      simp [increment_fileCounter]
  | dir nm cs =>
    rw [show processEntry fits (p, FSNode.dir nm cs) now st
        = process_tar_directory cs p now st from rfl,
      process_tar_directory_eq cs p now st]
    by_cases he : cs.isEmpty <;> simp [he, increment_fileCounter]

theorem processEntry_counter_le (fits : List String → Bool)
    (pe : List String × FSNode) (now : Nat) (st : RunState) :
    (processEntry fits pe now st).2.progress.fileCounter ≤ st.progress.fileCounter + 1 := by
  obtain ⟨p, n⟩ := pe
  cases n with
  | file d =>
    cases hd : d.readable
    · rw [show processEntry fits (p, FSNode.file d) now st
          = process_tar_file fits d p now st from rfl,
        process_tar_file_unreadable fits d p now st hd]
      simp
    · rw [show processEntry fits (p, FSNode.file d) now st
          = process_tar_file fits d p now st from rfl,
        process_tar_file_readable fits d p now st hd]
      simp [increment_fileCounter]
  | dir nm cs =>
    rw [show processEntry fits (p, FSNode.dir nm cs) now st
        = process_tar_directory cs p now st from rfl,
      process_tar_directory_eq cs p now st]
    by_cases he : cs.isEmpty <;> simp [he, increment_fileCounter]

theorem processEntry_events (fits : List String → Bool)
    (pe : List String × FSNode) (now : Nat) (st : RunState) :
    ∃ new, (processEntry fits pe now st).2.events = st.events ++ new ∧
      ∀ e ∈ new, e = GEvent.append := by
  obtain ⟨p, n⟩ := pe
  cases n with
  | file d =>
    cases hd : d.readable
    · refine ⟨[], ?_, by simp⟩
      rw [show processEntry fits (p, FSNode.file d) now st
          = process_tar_file fits d p now st from rfl,
        process_tar_file_unreadable fits d p now st hd]
      simp
    · refine ⟨[GEvent.append], ?_, by simp⟩
      rw [show processEntry fits (p, FSNode.file d) now st
          = process_tar_file fits d p now st from rfl,
        process_tar_file_readable fits d p now st hd]
  | dir nm cs =>
    refine ⟨[GEvent.append], ?_, by simp⟩
    rw [show processEntry fits (p, FSNode.dir nm cs) now st
        = process_tar_directory cs p now st from rfl,
      process_tar_directory_eq cs p now st]

theorem runEntries_counter_ge (fits : List String → Bool) (times : Nat → Nat) :
    ∀ (l : List (List String × FSNode)) (i : Nat) (st : RunState),
      st.progress.fileCounter ≤ (runEntries fits times l i st).progress.fileCounter := by
  intro l
  induction l with
  | nil => intro i st; simp [runEntries]
  | cons pe rest ih =>
    intro i st
    rw [runEntries]
    refine le_trans ?_ (ih (i + 1) (stepWrap (processEntry fits pe (times i) st)))
    rw [stepWrap_progress]
    exact processEntry_counter_ge fits pe (times i) st

theorem runEntries_counter_le (fits : List String → Bool) (times : Nat → Nat) :
    ∀ (l : List (List String × FSNode)) (i : Nat) (st : RunState),
      (runEntries fits times l i st).progress.fileCounter
        ≤ st.progress.fileCounter + l.length := by
  intro l
  induction l with
  | nil => intro i st; simp [runEntries]
  | cons pe rest ih =>
    intro i st
    rw [runEntries]
    refine le_trans (ih (i + 1) (stepWrap (processEntry fits pe (times i) st))) ?_
    rw [stepWrap_progress]
    have h := processEntry_counter_le fits pe (times i) st
    simp only [List.length_cons]
    omega

theorem runEntries_append_list (fits : List String → Bool) (times : Nat → Nat) :
    ∀ (l1 l2 : List (List String × FSNode)) (i : Nat) (st : RunState),
      runEntries fits times (l1 ++ l2) i st
        = runEntries fits times l2 (i + l1.length) (runEntries fits times l1 i st) := by
  intro l1
  induction l1 with
  | nil => intro l2 i st; simp [runEntries]
  | cons pe rest ih =>
    intro l2 i st
    rw [List.cons_append, runEntries, runEntries, ih]
    congr 1
    simp only [List.length_cons]
    omega

theorem runEntries_events (fits : List String → Bool) (times : Nat → Nat) :
    ∀ (l : List (List String × FSNode)) (i : Nat) (st : RunState),
      ∃ new, (runEntries fits times l i st).events = st.events ++ new ∧
        ∀ e ∈ new, e = GEvent.append := by
  intro l
  induction l with
  | nil => intro i st; exact ⟨[], by simp [runEntries], by simp⟩
  | cons pe rest ih =>
    intro i st
    rw [runEntries]
    obtain ⟨n1, h1, ha1⟩ := processEntry_events fits pe (times i) st
    obtain ⟨n2, h2, ha2⟩ := ih (i + 1) (stepWrap (processEntry fits pe (times i) st))
    refine ⟨n1 ++ n2, ?_, ?_⟩
    · rw [h2, stepWrap_events, h1, List.append_assoc]
    · intro e he
      rcases List.mem_append.mp he with h | h
      · exact ha1 e h
      · exact ha2 e h

/-- Over a list of enumerated entries (so: every directory in it passed
the non-empty filter) and with every path representable, the loop never
stops: the final counter adds exactly one per readable file, and the
error log gains exactly one line per unreadable file. -/
theorem runEntries_stats (fits : List String → Bool) (times : Nat → Nat)
    (hfits : ∀ p, fits p = true) :
    ∀ (l : List (List String × FSNode)), (∀ pe ∈ l, isEligible pe.2 = true) →
      ∀ (i : Nat) (st : RunState),
      (runEntries fits times l i st).progress.fileCounter
          = st.progress.fileCounter + (l.filter entryIsReadableFile).length ∧
      (runEntries fits times l i st).errLog.length
          = st.errLog.length + (l.filter entryIsUnreadableFile).length := by
  intro l
  induction l with
  | nil => intro _ i st; simp [runEntries]
  | cons pe rest ih =>
    intro hel i st
    have hrest : ∀ pe ∈ rest, isEligible pe.2 = true :=
      fun x hx => hel x (List.mem_cons_of_mem pe hx)
    obtain ⟨p, n⟩ := pe
    rw [runEntries]
    obtain ⟨hc, he⟩ := ih hrest (i + 1)
        (stepWrap (processEntry fits (p, n) (times i) st))
    cases n with
    | file d =>
      cases hd : d.readable
      · rw [show processEntry fits (p, FSNode.file d) (times i) st
            = process_tar_file fits d p (times i) st from rfl,
          process_tar_file_unreadable fits d p (times i) st hd] at hc he ⊢
        rw [hc, he]
        constructor
        · simp [stepWrap, List.filter, entryIsReadableFile, hd]
        · simp [stepWrap, List.filter, entryIsUnreadableFile, hd]
          omega
      · rw [show processEntry fits (p, FSNode.file d) (times i) st
            = process_tar_file fits d p (times i) st from rfl,
          process_tar_file_readable fits d p (times i) st hd, hfits p] at hc he ⊢
        rw [hc, he]
        constructor
        · simp [stepWrap, List.filter, entryIsReadableFile, hd,
            increment_fileCounter]
          omega
        · simp [stepWrap, List.filter, entryIsUnreadableFile, hd]
    | dir nm cs =>
      have hne : cs.isEmpty = false := by
        have h0 := hel (p, FSNode.dir nm cs) (List.mem_cons_self _ _)
        simpa [isEligible] using h0
      rw [show processEntry fits (p, FSNode.dir nm cs) (times i) st
          = process_tar_directory cs p (times i) st from rfl,
        process_tar_directory_eq cs p (times i) st, hne] at hc he ⊢
      rw [hc, he]
      constructor
      · simp [stepWrap, List.filter, entryIsReadableFile]
      · simp [stepWrap, List.filter, entryIsUnreadableFile]

/-! ## The claims -/

/-- C1: the claim that the counting pass (`num_files`) always equals the
number of `increment_total_progress` calls issued by a full
`process_tar_entries` run fails.  On a source root holding a single
file, `num_files` returns 2 (the file plus the non-empty root
directory, which the filter keeps) while the run issues exactly 1
increment: files increment, non-empty directories do not, and empty
directories are filtered out of the run entirely.  The bar total and
the increments drift by one for every non-empty directory. -/
theorem c1_total_vs_increments_drift :
    num_files treeOneFile = 2 ∧
    (pipelineFinal (fun _ => true) (fun _ => 0) 0 treeOneFile).progress.fileCounter = 1 ∧
    num_files treeOneFile ≠
      (pipelineFinal (fun _ => true) (fun _ => 0) 0 treeOneFile).progress.fileCounter :=
  ⟨by decide, by decide, by decide⟩

/-- C2: on a source root whose only child is the empty directory `c/`,
the enumeration keeps only the (non-empty) root, so `c/` never reaches
`process_tar_directory`: the whole run issues zero increments and the
archive holds only the root marker.  The empty directory is attributed
0 increments, not the claimed 1.  (The non-empty half of the claim does
hold: the processed root directory contributes 0, as the final counter
0 shows.) -/
theorem c2_empty_dir_gets_no_increment :
    (pipelineFinal (fun _ => true) (fun _ => 0) 0 treeOneEmptyDir).progress.fileCounter = 0 ∧
    archivePaths (pipelineFinal (fun _ => true) (fun _ => 0) 0 treeOneEmptyDir) = [[]] :=
  ⟨by decide, by decide⟩

/-- C5: on the spec's concrete scenario (`a.txt` 10 bytes, `b/b.txt`
5 bytes, empty `c/`), the counting pass returns 4 (two files plus the
non-empty directories root and `b/`), not the claimed 3; the run issues
2 increments (the two files), not 3; and the finished archive holds the
root marker, `a.txt`, `b/` and `b/b.txt` but no entry for `c/`, which
the enumeration filter drops. -/
theorem c5_scenario_eval :
    num_files treeScenario = 4 ∧
    (pipelineFinal (fun _ => true) (fun _ => 0) 0 treeScenario).progress.fileCounter = 2 ∧
    archivePaths (pipelineFinal (fun _ => true) (fun _ => 0) 0 treeScenario)
      = [[], ["a.txt"], ["b"], ["b", "b.txt"]] ∧
    ["c"] ∉ archivePaths (pipelineFinal (fun _ => true) (fun _ => 0) 0 treeScenario) :=
  ⟨by decide, by decide, by decide, by decide⟩

/-- C3: on the success path the gateway trace of a full run is some
sequence of appends followed by exactly one `tar::Builder::finish` and
then exactly one encoder `finish`: each finish occurs exactly once and
strictly after the last append, for every source tree, path filter and
timing schedule. -/
theorem c3_finish_once_after_appends (fits : List String → Bool)
    (times : Nat → Nat) (t0 : Nat) (src : FSNode) :
    ∃ pre, (encode_run fits times t0 src).events
        = pre ++ [GEvent.tarFinish, GEvent.encFinish] ∧
      (∀ e ∈ pre, e = GEvent.append) ∧
      (encode_run fits times t0 src).events.count GEvent.tarFinish = 1 ∧
      (encode_run fits times t0 src).events.count GEvent.encFinish = 1 := by
  obtain ⟨new, hev, hall⟩ := runEntries_events fits times (entries src) 0
    (initRunState (num_files src) t0)
  have herun : (encode_run fits times t0 src).events
      = (pipelineFinal fits times t0 src).events
          ++ [GEvent.tarFinish, GEvent.encFinish] := rfl
  have hpf : (pipelineFinal fits times t0 src).events = new := by
    rw [show pipelineFinal fits times t0 src
        = runEntries fits times (entries src) 0 (initRunState (num_files src) t0) from rfl,
      hev]
    simp [initRunState]
  have hnot1 : GEvent.tarFinish ∉ new := by
    intro hm
    exact absurd (hall _ hm) (by decide)
  have hnot2 : GEvent.encFinish ∉ new := by
    intro hm
    exact absurd (hall _ hm) (by decide)
  refine ⟨new, ?_, hall, ?_, ?_⟩
  · rw [herun, hpf]
  · rw [herun, hpf, List.count_append, List.count_eq_zero.mpr hnot1]
    decide
  · rw [herun, hpf, List.count_append, List.count_eq_zero.mpr hnot2]
    decide

/-- C7: when the container header rejects the relative path, the
`processing.rs` variant does warn and continue (no error returned, one
warning line, the entry still appended), but the `encode.rs` variant
panics: its fallback evaluates `rel_path.strip_prefix(&path).unwrap()`
with `path` the absolute path, which is never a prefix of the relative
path, so the worker aborts before printing the warning. -/
theorem c7_longpath_warn_vs_panic :
    (process_tar_file (fun _ => false) fileLongName ["longname.txt"] 0
        (initRunState 1 0)).1 = none ∧
    (process_tar_file (fun _ => false) fileLongName ["longname.txt"] 0
        (initRunState 1 0)).2.errLog = ["Error setting path for longname.txt"] ∧
    (process_tar_file (fun _ => false) fileLongName ["longname.txt"] 0
        (initRunState 1 0)).2.archive.length = 1 ∧
    isPanicked (encode_process_file (fun _ => false) ["src"] fileLongName
        ["longname.txt"] 0 (initRunState 1 0)) = true :=
  ⟨by decide, by decide, by decide, by decide⟩

/-- C4 counterexample: the code performs no re-validation of the buffer
length against the stat size, so for a file whose contents change
between `metadata()` and the read (stat size 10, 5 bytes read) the
appended entry's header records size 10 while the appended buffer holds
5 bytes — the claimed equality fails and nothing prevents the append. -/
theorem c4_size_mismatch_counterexample :
    (process_tar_file (fun _ => true) fileMismatch ["x.txt"] 0
        (initRunState 1 0)).2.archive
      = [TarEntry.fileEntry
          { size := 10, mode := 420, mtime := 0, path := some ["x.txt"] }
          [1, 2, 3, 4, 5]] ∧
    (10 : Nat) ≠ ([1, 2, 3, 4, 5] : List Nat).length :=
  ⟨by decide, by decide⟩

/-- C4 (amended): the size written into the header is the stat size read
before buffering, and the buffer appended is whatever the read
returned; since no re-validation is performed, the header size equals
the appended buffer's byte length exactly when the contents read have
the stat-reported length (a file unchanged between stat and read). -/
theorem c4_size_matches_buffer_of_consistent (fits : List String → Bool)
    (d : FileData) (relPath : List String) (now : Nat) (st : RunState)
    (hr : d.readable = true) (hlen : d.contents.length = d.metaSize) :
    (process_tar_file fits d relPath now st).2.archive
      = st.archive ++ [TarEntry.fileEntry
          { size := d.metaSize, mode := d.mode, mtime := d.mtime,
            path := if fits relPath then some relPath else none } d.contents] ∧
    d.metaSize = d.contents.length := by
  rw [process_tar_file_readable fits d relPath now st hr]
  exact ⟨rfl, hlen.symm⟩

/-- C4 witness: the amended statement evaluated on a consistent 3-byte
file. -/
theorem c4_witness :
    (process_tar_file (fun _ => true) fileConsistent ["a"] 0
        (initRunState 1 0)).2.archive
      = (initRunState 1 0).archive ++ [TarEntry.fileEntry
          { size := fileConsistent.metaSize, mode := fileConsistent.mode,
            mtime := fileConsistent.mtime,
            path := if (fun _ => true) ["a"] then some ["a"] else none }
          fileConsistent.contents] ∧
    fileConsistent.metaSize = fileConsistent.contents.length :=
  c4_size_matches_buffer_of_consistent (fun _ => true) fileConsistent ["a"] 0
    (initRunState 1 0) rfl rfl

/-- C6: with every path representable, a run over any source tree —
whatever files fail to open — returns `Ok`, so `main` exits 0; the
final counter counts exactly the readable files (the loop continued
past every failure) and the error log holds exactly one line per
unreadable file. -/
theorem c6_per_entry_errors_nonfatal (fits : List String → Bool)
    (times : Nat → Nat) (t0 : Nat) (src : FSNode)
    (hfits : ∀ p, fits p = true) :
    ∃ st, process_tar_entries fits times t0 src = Except.ok st ∧
      mainExitCode (process_tar_entries fits times t0 src) = 0 ∧
      st.progress.fileCounter = ((entries src).filter entryIsReadableFile).length ∧
      st.errLog.length = ((entries src).filter entryIsUnreadableFile).length := by
  refine ⟨pipelineFinal fits times t0 src, rfl, rfl, ?_, ?_⟩
  · have h := (runEntries_stats fits times hfits (entries src)
      (mem_entries_eligible src) 0 (initRunState (num_files src) t0)).1
    simpa [pipelineFinal, initRunState, initProgress] using h
  · have h := (runEntries_stats fits times hfits (entries src)
      (mem_entries_eligible src) 0 (initRunState (num_files src) t0)).2
    simpa [pipelineFinal, initRunState, initProgress] using h

/-- C6 witness: a run over a tree with one unreadable and one readable
file returns `Ok`, exits 0, counts the one readable file and logs the
one unreadable file. -/
theorem c6_witness :
    ∃ st, process_tar_entries (fun _ => true) (fun _ => 0) 0 treeMixed = Except.ok st ∧
      mainExitCode (process_tar_entries (fun _ => true) (fun _ => 0) 0 treeMixed) = 0 ∧
      st.progress.fileCounter
        = ((entries treeMixed).filter entryIsReadableFile).length ∧
      st.errLog.length
        = ((entries treeMixed).filter entryIsUnreadableFile).length :=
  c6_per_entry_errors_nonfatal (fun _ => true) (fun _ => 0) 0 treeMixed (fun _ => rfl)

/-- C8: every `increment_total_progress` call advances the completed
counter by exactly 1 and moves the bar position with it; when the
elapsed time since the previous increment is below 10 ms or above 30 s
the smoothed average is left untouched, and otherwise it becomes
`0.2 * elapsed_seconds + 0.8 * previous`, or the raw elapsed seconds
when no previous average exists. -/
theorem c8_increment_behaviour (ps : ProgressState) (now : Nat) :
    (increment_total_progress ps now).fileCounter = ps.fileCounter + 1 ∧
    (increment_total_progress ps now).position = ps.fileCounter + 1 ∧
    ((now - ps.lastUpdateTime < tenMillisNanos ∨
        thirtySecsNanos < now - ps.lastUpdateTime) →
      (increment_total_progress ps now).smoothedEtaPerFile = ps.smoothedEtaPerFile) ∧
    (¬(now - ps.lastUpdateTime < tenMillisNanos ∨
        thirtySecsNanos < now - ps.lastUpdateTime) →
      (increment_total_progress ps now).smoothedEtaPerFile
        = some (match ps.smoothedEtaPerFile with
            | some prev => 0.2 * asSecsF64 (now - ps.lastUpdateTime) + 0.8 * prev
            | none => asSecsF64 (now - ps.lastUpdateTime))) := by
  unfold increment_total_progress
  dsimp only
  by_cases hc : now - ps.lastUpdateTime < tenMillisNanos ∨
      thirtySecsNanos < now - ps.lastUpdateTime
  · rw [if_pos hc]
    exact ⟨rfl, rfl, fun _ => rfl, fun h => absurd hc h⟩
  · rw [if_neg hc]
    refine ⟨rfl, rfl, fun h => absurd h hc, fun _ => ?_⟩
    cases hsm : ps.smoothedEtaPerFile with
    | none => rfl
    | some prev =>
      dsimp only
      norm_num

/-- C8 witness: a 1 s elapsed sample folded into an existing 2 s
average. -/
theorem c8_witness :
    ¬(1000000000 - psSample.lastUpdateTime < tenMillisNanos ∨
        thirtySecsNanos < 1000000000 - psSample.lastUpdateTime) ∧
    (increment_total_progress psSample 1000000000).smoothedEtaPerFile
      = some (match psSample.smoothedEtaPerFile with
          | some prev => 0.2 * asSecsF64 (1000000000 - psSample.lastUpdateTime) + 0.8 * prev
          | none => asSecsF64 (1000000000 - psSample.lastUpdateTime)) :=
  ⟨by decide, (c8_increment_behaviour psSample 1000000000).2.2.2 (by decide)⟩

/-- C9: the ETA renderer reports the calculating message while fewer
than `min(10, total_entries)` entries have completed or no smoothed
average exists; otherwise it clamps the smoothed seconds to
`[0.005, 60]`, multiplies by the remaining entry count, truncates to
whole seconds and formats the result as a duration. -/
theorem c9_eta_rendering (ps : ProgressState) :
    (ps.fileCounter < min 10 ps.totalFiles ∨ ps.smoothedEtaPerFile = none →
      update_eta_message ps = "ETA: Calculating...") ∧
    (∀ v : ℚ, min 10 ps.totalFiles ≤ ps.fileCounter →
      ps.smoothedEtaPerFile = some v →
      update_eta_message ps
        = format_eta (f64ToU64Trunc (rclamp v 0.005 60
            * ((ps.totalFiles - ps.fileCounter : Nat) : ℚ)))) := by
  constructor
  · intro h
    rw [update_eta_message, if_pos h]
  · intro v h1 h2
    have hnot : ¬(ps.fileCounter < min 10 ps.totalFiles ∨
        ps.smoothedEtaPerFile = none) := by
      rintro (hlt | hn)
      · exact absurd hlt (not_lt.mpr h1)
      · rw [h2] at hn
        cases hn
    rw [update_eta_message, if_neg hnot, h2]
    rfl

/-- C9 witness: a fresh state reports the calculating message; a state
past warm-up with a 2 s average and 10 entries remaining reports the
clamped product, which evaluates to 20 seconds. -/
theorem c9_witness :
    update_eta_message psCalc = "ETA: Calculating..." ∧
    update_eta_message psEta
      = format_eta (f64ToU64Trunc (rclamp 2 0.005 60
          * ((psEta.totalFiles - psEta.fileCounter : Nat) : ℚ))) :=
  ⟨(c9_eta_rendering psCalc).1 (Or.inl (by decide)),
   (c9_eta_rendering psEta).2 2 (by decide) rfl⟩

/-- C10: each increment call adds exactly 1 to the completed counter,
the counter after `k` consumed entries is non-decreasing in `k`, and at
every point of the run it never exceeds the total fixed at pipeline
start (`num_files`). -/
theorem c10_counter_monotone_bounded (fits : List String → Bool)
    (times : Nat → Nat) (t0 : Nat) (src : FSNode) (ps : ProgressState)
    (now : Nat) (k1 k2 : Nat) (h : k1 ≤ k2) :
    (increment_total_progress ps now).fileCounter = ps.fileCounter + 1 ∧
    counterAfter fits times t0 src k1 ≤ counterAfter fits times t0 src k2 ∧
    counterAfter fits times t0 src k2 ≤ num_files src := by
  refine ⟨increment_fileCounter ps now, ?_, ?_⟩
  · have hsplit : (entries src).take k2
        = (entries src).take k1 ++ ((entries src).take k2).drop k1 := by
      conv_lhs => rw [← List.take_append_drop k1 ((entries src).take k2)]
      rw [List.take_take, min_eq_left h]
    unfold counterAfter
    rw [hsplit, runEntries_append_list]
    exact runEntries_counter_ge fits times _ _ _
  · unfold counterAfter
    have h1 := runEntries_counter_le fits times ((entries src).take k2) 0
      (initRunState (num_files src) t0)
    have h0 : (initRunState (num_files src) t0).progress.fileCounter = 0 := rfl
    rw [h0] at h1
    have h2 : ((entries src).take k2).length ≤ (entries src).length := by
      rw [List.length_take]
      exact min_le_right _ _
    have h3 : num_files src = (entries src).length := num_files_eq_entries_length src
    omega

/-- C10 witness: the three conclusions at a concrete tree, instants and
prefix lengths 0 ≤ 1. -/
theorem c10_witness :
    (increment_total_progress psCalc 5).fileCounter = psCalc.fileCounter + 1 ∧
    counterAfter (fun _ => true) (fun _ => 0) 0 treeOneFile 0
      ≤ counterAfter (fun _ => true) (fun _ => 0) 0 treeOneFile 1 ∧
    counterAfter (fun _ => true) (fun _ => 0) 0 treeOneFile 1 ≤ num_files treeOneFile :=
  c10_counter_monotone_bounded (fun _ => true) (fun _ => 0) 0 treeOneFile
    psCalc 5 0 1 (by decide)

end DirCompress
